import Mathlib

/-!
Verification development for the OCR weight-extraction subsystem of
`recepcion-app` (`apps/api/src/app/services/ocr_service.py` and
`apps/api/src/app/utils/image_processing.py`).

The Python code is shallowly embedded: pure text processing becomes Lean
functions on `List Char` / `String`, Python floats become `Rat` (the numeric
literals involved — 0.1, 50.0, 0.7, 0.85, 1000 — are all exactly
representable at the precision the claims are stated at), fallible calls
become `Except String` values, and external effects (HTTP fetch, Tesseract,
Google Vision, the database session, wall-clock time) become oracle fields of
a context structure, so that one run of `OCRService.process_image` is a pure
function of its context.  Regular-expression use is embedded by specialized
matchers for the five fixed patterns of `_extract_weight_from_text`; for
these patterns Python's backtracking search is deterministic except for the
trailing word-boundary of the bare-number pattern, which is modeled by the
explicit greedy candidate order (see `tier2MatchAt`).
-/

set_option maxRecDepth 100000

namespace RecepcionOCR

/-! ### Character classes (ASCII model of Python `re` classes `\d`, `\s`, `\w`) -/

def isDigitCh (c : Char) : Bool := c.isDigit

def isSpaceCh (c : Char) : Bool :=
  c = ' ' || c = '\t' || c = '\n' || c = '\r' || c = '\x0b' || c = '\x0c'

def isWordCh (c : Char) : Bool := c.isAlpha || c.isDigit || c = '_'

/-! ### `float(s)` on the digit strings the regexes capture -/

def digitsToNat (ds : List Char) : Nat :=
  ds.foldl (fun n c => 10 * n + (c.toNat - '0'.toNat)) 0

/-- Python `float(s)` restricted to the shapes `\d+`, `\d+.`, `\d+.\d+`
captured by the patterns below (`none` models `ValueError`). -/
def parseFloat (s : List Char) : Option Rat :=
  let d1 := s.takeWhile isDigitCh
  let r := s.drop d1.length
  match r with
  | [] => if d1.isEmpty then none else some (digitsToNat d1 : Rat)
  | '.' :: r2 =>
    let d2 := r2.takeWhile isDigitCh
    if r2.drop d2.length = [] && !(d1.isEmpty && d2.isEmpty) then
      some ((digitsToNat d1 : Rat) + (digitsToNat d2 : Rat) / ((10 : Rat) ^ d2.length))
    else none
  | _ => none

/-! ### The five tier-1 patterns of `_extract_weight_from_text` -/

inductive Pat where
  | kg | k | g | peso | weight
deriving DecidableEq

/-- The literal regex source strings from the `weight_patterns` list. -/
def patSrc : Pat → String
  | .kg => "(\\d+\\.?\\d*)\\s*kg"
  | .k => "(\\d+\\.?\\d*)\\s*k"
  | .g => "(\\d+\\.?\\d*)\\s*g"
  | .peso => "peso\\s*:?\\s*(\\d+\\.?\\d*)"
  | .weight => "weight\\s*:?\\s*(\\d+\\.?\\d*)"

def listInfix (n : List Char) : List Char → Bool
  | [] => n.isEmpty
  | c :: t => n.isPrefixOf (c :: t) || listInfix n t

/-- The source's gram-conversion test `'g' in pattern and 'kg' not in pattern`,
computed on the actual pattern source strings. -/
def gramsConv (p : Pat) : Bool :=
  listInfix "g".data (patSrc p).data && !(listInfix "kg".data (patSrc p).data)

/-- Greedy match of `\d+\.?\d*` at the head of `s`: the captured characters
and the remaining suffix.  For the five tier-1 patterns the continuations
(`\s*` followed by literal letters, or end of pattern) can never consume a
digit or a dot, so giving characters back to the continuation can never turn
a failure into a success and the greedy parse is exact. -/
def matchNumber (s : List Char) : Option (List Char × List Char) :=
  let d1 := s.takeWhile isDigitCh
  if d1.isEmpty then none
  else
    match s.drop d1.length with
    | '.' :: r2 =>
      let d2 := r2.takeWhile isDigitCh
      some (d1 ++ '.' :: d2, r2.drop d2.length)
    | r1 => some (d1, r1)

def dropSpaces (s : List Char) : List Char := s.dropWhile isSpaceCh

/-- Match `(\d+\.?\d*)\s*<lits>` at the head of `s`, returning the capture. -/
def matchUnitAt (lits : List Char) (s : List Char) : Option (List Char) :=
  match matchNumber s with
  | none => none
  | some (cap, rest) => if lits.isPrefixOf (dropSpaces rest) then some cap else none

/-- Match `<lits>\s*:?\s*(\d+\.?\d*)` at the head of `s`, returning the capture. -/
def matchLabelAt (lits : List Char) (s : List Char) : Option (List Char) :=
  if lits.isPrefixOf s then
    let r1 := dropSpaces (s.drop lits.length)
    let r2 := match r1 with
      | ':' :: t => dropSpaces t
      | _ => r1
    match matchNumber r2 with
    | none => none
    | some (cap, _) => some cap
  else none

def patMatchAt : Pat → List Char → Option (List Char)
  | .kg, s => matchUnitAt ['k', 'g'] s
  | .k, s => matchUnitAt ['k'] s
  | .g, s => matchUnitAt ['g'] s
  | .peso, s => matchLabelAt ['p', 'e', 's', 'o'] s
  | .weight, s => matchLabelAt ['w', 'e', 'i', 'g', 'h', 't'] s

/-- `re.findall(pattern, text)[0]`: leftmost match of the pattern,
scanning every start position. -/
def scanFirst (m : List Char → Option (List Char)) : List Char → Option (List Char)
  | [] => none
  | c :: t =>
    match m (c :: t) with
    | some cap => some cap
    | none => scanFirst m t

def firstMatchOf (p : Pat) (s : List Char) : Option (List Char) :=
  scanFirst (patMatchAt p) s

/-- The fixed pattern order of the `weight_patterns` list. -/
def patsOrder : List Pat := [.kg, .k, .g, .peso, .weight]

/-- The range gate `0.1 <= weight <= 50.0`. -/
def inRange (w : Rat) : Bool := decide ((1 : Rat)/10 ≤ w) && decide (w ≤ (50 : Rat))

/-- `weight = weight / 1000` when `'g' in pattern and 'kg' not in pattern`. -/
def convWeight (p : Pat) (w : Rat) : Rat := if gramsConv p then w / 1000 else w

/-- The candidate value a pattern contributes on a text: its first regex
match (if any), through `float` (`none` models `ValueError`) and the gram
conversion. -/
def patCand (t : List Char) (p : Pat) : Option Rat :=
  ((firstMatchOf p t).bind parseFloat).map (convWeight p)

/-- The tier-1 loop body: first match of each pattern in order, `float` it,
apply the gram conversion, return it if it passes the range gate, otherwise
continue with the next pattern. -/
def tier1Go : List Pat → List Char → Option Rat
  | [], _ => none
  | p :: ps, t =>
    match patCand t p with
    | none => tier1Go ps t
    | some w => if inRange w then some w else tier1Go ps t

/-! ### Tier 2: `re.findall(r'\b(\d+\.?\d*)\b', text)` -/

/-- Candidate captures of `\d+\.?\d*` at one start position in Python's
backtracking order, when a dot follows the first digit run: the trailing
`\d*` shrinks first, then the dot is given back, then `\d+` shrinks (which
revisits only shorter all-digit captures). -/
def dotCands (d1 d2 : List Char) : List (List Char) :=
  (List.range (d2.length + 1)).reverse.map (fun t => d1 ++ '.' :: d2.take t)

def plainCands (d1 : List Char) : List (List Char) :=
  (List.range d1.length).reverse.map (fun j => d1.take (j + 1))

def lastIsWord (cap : List Char) : Bool :=
  match cap.getLast? with
  | some c => isWordCh c
  | none => false

/-- Match `(\d+\.?\d*)\b` at the head of `s` (the leading `\b` is checked by
the caller): the first candidate in backtracking order whose trailing
word-boundary holds.  Every candidate contains at least one digit, so
`max cap.length 1 = cap.length`; the `max` only makes the drop visibly
length-decreasing. -/
def tier2MatchAt (s : List Char) : Option (List Char) :=
  let d1 := s.takeWhile isDigitCh
  if d1.isEmpty then none
  else
    let cands :=
      match s.drop d1.length with
      | '.' :: r2 => dotCands d1 (r2.takeWhile isDigitCh) ++ plainCands d1
      | _ => plainCands d1
    cands.findSome? fun cap =>
      let nextW :=
        match (s.drop (max cap.length 1)).head? with
        | some c => isWordCh c
        | none => false
      if lastIsWord cap != nextW then some cap else none

/-- All matches of `\b(\d+\.?\d*)\b`, scanning left to right and resuming
after each match (non-overlapping).  `prevWord` tracks whether the character
before the current position is a word character (for the leading `\b`; the
match must start with a digit, so a word character before it kills it). -/
def findNumbers : List Char → Bool → List (List Char)
  | [], _ => []
  | c :: t, prevWord =>
    if prevWord then findNumbers t (isWordCh c)
    else
      match tier2MatchAt (c :: t) with
      | none => findNumbers t (isWordCh c)
      | some cap => cap :: findNumbers ((c :: t).drop (max cap.length 1)) (lastIsWord cap)
termination_by s _ => s.length
decreasing_by
  all_goals simp [List.length_drop]

/-- The tier-2 loop: `float` each found number, return the first one that
passes the range gate. -/
def tier2Go : List (List Char) → Option Rat
  | [] => none
  | n :: ns =>
    match parseFloat n with
    | none => tier2Go ns
    | some w => if inRange w then some w else tier2Go ns

/-- `text.lower().replace(',', '.')`. -/
def normText (s : String) : List Char :=
  s.data.map (fun c => let c' := c.toLower; if c' = ',' then '.' else c')

/-- `OCRService._extract_weight_from_text`. -/
def extract_weight_from_text (s : String) : Option Rat :=
  let t := normText s
  match tier1Go patsOrder t with
  | some w => some w
  | none => tier2Go (findNumbers t false)

example : extract_weight_from_text "2500 g" = some (5/2) := by with_unfolding_all decide
example : extract_weight_from_text "peso: 2.5 kg" = some (5/2) := by with_unfolding_all decide
example : extract_weight_from_text "2,5 kg" = some (5/2) := by with_unfolding_all decide
example : extract_weight_from_text "weight: 2500" = some (5/2) := by with_unfolding_all decide
example : extract_weight_from_text "no numbers" = none := by with_unfolding_all decide
example : extract_weight_from_text "200 kg 3 kg" = some 3 := by with_unfolding_all decide
example : extract_weight_from_text "0.123 kg" = some (123/1000) := by with_unfolding_all decide

/-! ### `_validate_weight_value`: range gate plus rounding to 2 decimal places -/

/-- Python's `round` to an integer: round half to even. -/
def roundHalfEven (q : Rat) : Int :=
  let f := q.floor
  let r := q - (f : Rat)
  if r < 1/2 then f
  else if 1/2 < r then f + 1
  else if f % 2 = 0 then f else f + 1

/-- `round(weight, 2)`. -/
def round2 (q : Rat) : Rat := (roundHalfEven (q * 100) : Int) / 100

/-- `OCRService._validate_weight_value`. -/
def validate_weight_value (w : Rat) : Option Rat :=
  if inRange w then some (round2 w) else none

example : validate_weight_value (123/1000) = some (12/100) := by with_unfolding_all decide
example : validate_weight_value 60 = none := by with_unfolding_all decide

/-! ### The parser is exactly "first candidate surviving the range gate" -/

/-- All candidate values the parser considers, in the order it considers
them: tier-1 candidates in pattern order, then the tier-2 standalone
numbers. -/
def allCands (s : String) : List Rat :=
  patsOrder.filterMap (patCand (normText s)) ++
    (findNumbers (normText s) false).filterMap parseFloat

theorem tier1Go_eq_find (ps : List Pat) (t : List Char) :
    tier1Go ps t = (ps.filterMap (patCand t)).find? inRange := by
  induction ps with
  | nil => rfl
  | cons p ps ih =>
    rw [tier1Go, List.filterMap_cons]
    cases hc : patCand t p with
    | none => exact ih
    | some w =>
      by_cases hr : inRange w = true
      · simp [hr, List.find?_cons]
      · simp only [hr]
        rw [List.find?_cons_of_neg _ hr]
        simpa [hr] using ih

theorem tier2Go_eq_find (ns : List (List Char)) :
    tier2Go ns = (ns.filterMap parseFloat).find? inRange := by
  induction ns with
  | nil => rfl
  | cons n ns ih =>
    rw [tier2Go, List.filterMap_cons]
    cases hc : parseFloat n with
    | none => exact ih
    | some w =>
      by_cases hr : inRange w = true
      · simp [hr, List.find?_cons]
      · simp only [hr]
        rw [List.find?_cons_of_neg _ hr]
        simpa [hr] using ih

theorem extract_eq_find (s : String) :
    extract_weight_from_text s = (allCands s).find? inRange := by
  rw [allCands, List.find?_append, ← tier1Go_eq_find, ← tier2Go_eq_find]
  simp only [extract_weight_from_text]
  cases tier1Go patsOrder (normText s) <;> simp [Option.or]

/-- Any value the parser returns passed the range gate. -/
theorem extract_inRange (s : String) (w : Rat) (h : extract_weight_from_text s = some w) :
    (1 : Rat)/10 ≤ w ∧ w ≤ 50 := by
  rw [extract_eq_find] at h
  have := List.find?_some h
  rw [inRange, Bool.and_eq_true, decide_eq_true_iff, decide_eq_true_iff] at this
  exact this

/-! ### Rounding keeps validated weights inside the range -/

theorem ratFloor_le (q : Rat) : (q.floor : Rat) ≤ q := Rat.le_floor.mp le_rfl

theorem roundHalfEven_ge (q : Rat) (n : Int) (h : (n : Rat) ≤ q) : n ≤ roundHalfEven q := by
  have hn : n ≤ q.floor := Rat.le_floor.mpr h
  rw [roundHalfEven]
  split_ifs <;> omega

theorem roundHalfEven_le (q : Rat) (n : Int) (h : q ≤ (n : Rat)) : roundHalfEven q ≤ n := by
  have hfl : (q.floor : Rat) ≤ q := ratFloor_le q
  have hfn : q.floor ≤ n := by
    by_contra h'
    push_neg at h'
    have h1 : n + 1 ≤ q.floor := by omega
    have h2 : ((n + 1 : Int) : Rat) ≤ q := Rat.le_floor.mp h1
    push_cast at h2
    linarith
  have hlt : (1 : Rat)/2 ≤ q - (q.floor : Rat) → q.floor + 1 ≤ n := by
    intro hr
    rcases lt_or_eq_of_le hfn with h' | h'
    · omega
    · exfalso
      rw [h'] at hr
      linarith
  rw [roundHalfEven]
  split_ifs with h1 h2 h3
  · exact hfn
  · exact hlt (by linarith)
  · exact hfn
  · exact hlt (by linarith)

theorem round2_mem (w : Rat) (h1 : (1 : Rat)/10 ≤ w) (h2 : w ≤ 50) :
    (1 : Rat)/10 ≤ round2 w ∧ round2 w ≤ 50 := by
  have hg : (10 : Int) ≤ roundHalfEven (w * 100) := by
    apply roundHalfEven_ge
    push_cast
    linarith
  have hl : roundHalfEven (w * 100) ≤ (5000 : Int) := by
    apply roundHalfEven_le
    push_cast
    linarith
  rw [round2]
  constructor
  · rw [show (1 : Rat)/10 = (10 : Rat)/100 by norm_num]
    apply div_le_div_of_nonneg_right ?_ (by norm_num)
    · exact_mod_cast hg
  · rw [show (50 : Rat) = (5000 : Rat)/100 by norm_num]
    apply div_le_div_of_nonneg_right ?_ (by norm_num)
    · exact_mod_cast hl

theorem validate_some (w v : Rat) (h : validate_weight_value w = some v) :
    inRange w = true ∧ v = round2 w := by
  rw [validate_weight_value] at h
  by_cases hw : inRange w = true
  · rw [if_pos hw] at h
    exact ⟨hw, (Option.some_injective _ h).symm⟩
  · rw [if_neg hw] at h
    exact absurd h (by simp)

/-- Any value `_validate_weight_value` returns lies in `[0.1, 50.0]`. -/
theorem validate_range (w v : Rat) (h : validate_weight_value w = some v) :
    (1 : Rat)/10 ≤ v ∧ v ≤ 50 := by
  obtain ⟨hw, hv⟩ := validate_some w v h
  rw [inRange, Bool.and_eq_true, decide_eq_true_iff, decide_eq_true_iff] at hw
  rw [hv]
  exact round2_mem w hw.1 hw.2

/-! ### The orchestrator `OCRService.process_image` and its collaborators

External effects are oracle fields of `Ctx`, so one run is a pure function
of its context.  The run is instrumented: besides the returned dict
(`Outcome`) it records the final log table, which image each OCR adapter was
invoked on, and the arbitrated result dict before weight re-validation. -/

/-- The dict each OCR adapter returns. -/
structure ExtractionResult where
  extracted_text : String
  extracted_weight : Option Rat
  confidence_score : Rat
  ocr_engine : String
deriving DecidableEq

/-- One `OCRProcessingLog` row. -/
structure LogEntry where
  registration_id : String
  extracted_text : String
  confidence_score : Rat
  processing_time_ms : Nat
  ocr_engine : String
deriving DecidableEq

/-- The dict `process_image` returns.  The error path's dict carries no
`extracted_text` key, hence the `Option`. -/
structure Outcome where
  success : Bool
  extracted_text : Option String
  extracted_weight : Option Rat
  confidence_score : Rat
  ocr_engine : String
  processing_time_ms : Nat
  error : Option String
deriving DecidableEq

/-- Raw `pytesseract` output for one image: the `image_to_string` text and
the `conf` column of `image_to_data`. -/
structure TessOut where
  text : String
  confs : List Int
deriving DecidableEq

/-- `OCRService._extract_with_tesseract`, given the raw OCR output or an
exception raised inside its `try` block. -/
def extract_with_tesseract (o : Except String TessOut) : ExtractionResult :=
  match o with
  | .error _ => ⟨"", none, 0, "tesseract"⟩
  | .ok t =>
    let confidences := t.confs.filter (fun c => 0 < c)
    let avg_confidence : Rat :=
      if confidences.isEmpty then 0
      else ((confidences.sum : Int) : Rat) / (confidences.length : Rat) / 100
    ⟨t.text.trim, extract_weight_from_text t.text, avg_confidence, "tesseract"⟩

/-- `OCRService._extract_with_google_vision`, given client availability and
the service response: an exception/service-reported error message, or the
optional first full-image text annotation. -/
def extract_with_google_vision (clientOk : Bool) (resp : Except String (Option String)) :
    ExtractionResult :=
  if !clientOk then ⟨"", none, 0, "google_vision"⟩
  else
    match resp with
    | .error _ => ⟨"", none, 0, "google_vision"⟩
    | .ok none => ⟨"", none, 0, "google_vision"⟩
    | .ok (some txt) => ⟨txt.trim, extract_weight_from_text txt, 85/100, "google_vision"⟩

/-- The context of one `process_image` call: its arguments plus oracles for
every external effect. -/
structure Ctx (Img : Type) where
  image_url : String
  registration_id : Option String
  /-- acquisition: what fetching and decoding `image_url` yields. -/
  fetch : Except String Img
  /-- `preprocess_image_for_ocr` (total: conditioning never raises). -/
  preprocess : Img → Img
  /-- raw Tesseract output on a given image, or an exception. -/
  tessOut : Img → Except String TessOut
  visionClientOk : Bool
  /-- Google Vision response on a given image. -/
  visionResp : Img → Except String (Option String)
  /-- measured wall-clock elapsed milliseconds. -/
  elapsed_ms : Nat
  /-- whether the log-sink write commits (`true`) or raises (`false`). -/
  logWriteOk : Bool
  /-- the log table before the run. -/
  db0 : List LogEntry

/-- `OCRService._download_image`: any exception is re-raised as
`ValueError(f"Failed to load image from {image_url}: {e}")`. -/
def download_image {Img : Type} (ctx : Ctx Img) : Except String Img :=
  match ctx.fetch with
  | .ok img => .ok img
  | .error e => .error ("Failed to load image from " ++ ctx.image_url ++ ": " ++ e)

/-- `OCRService._log_ocr_processing`: on success the row is committed; on a
storage exception the session is rolled back, leaving the table unchanged,
and nothing is raised. -/
def log_ocr_processing (writeOk : Bool) (db : List LogEntry) (entry : LogEntry) :
    List LogEntry :=
  if writeOk then db ++ [entry] else db

/-- Instrumented result of one run. -/
structure RunResult (Img : Type) where
  outcome : Outcome
  db : List LogEntry
  tesseractCalls : List Img
  visionCalls : List Img
  /-- the arbitrated `result` dict before weight re-validation (`none` on
  the error path). -/
  selected : Option ExtractionResult
deriving DecidableEq

/-- `OCRService.process_image`. -/
def process_image {Img : Type} (ctx : Ctx Img) : RunResult Img :=
  match download_image ctx with
  | .error e =>
    let db1 :=
      match ctx.registration_id with
      | some rid =>
        log_ocr_processing ctx.logWriteOk ctx.db0 ⟨rid, "", 0, ctx.elapsed_ms, "error"⟩
      | none => ctx.db0
    ⟨⟨false, none, none, 0, "error", ctx.elapsed_ms, some e⟩, db1, [], [], none⟩
  | .ok image =>
    let processed_image := ctx.preprocess image
    let tesseract_result := extract_with_tesseract (ctx.tessOut processed_image)
    let step :=
      if (7 : Rat)/10 ≤ tesseract_result.confidence_score then
        (tesseract_result, ([] : List Img))
      else
        let vision_result := extract_with_google_vision ctx.visionClientOk (ctx.visionResp image)
        (if vision_result.confidence_score > tesseract_result.confidence_score then vision_result
         else tesseract_result,
         [image])
    let result := step.1
    let db1 :=
      match ctx.registration_id with
      | some rid =>
        log_ocr_processing ctx.logWriteOk ctx.db0
          ⟨rid, result.extracted_text, result.confidence_score, ctx.elapsed_ms,
            result.ocr_engine⟩
      | none => ctx.db0
    let final_weight :=
      match result.extracted_weight with
      | some w => validate_weight_value w
      | none => none
    ⟨⟨true, some result.extracted_text, final_weight, result.confidence_score,
       result.ocr_engine, ctx.elapsed_ms, none⟩,
     db1, [processed_image], step.2, some result⟩

/-! ### Image conditioning (`app/utils/image_processing.py`)

A bitmap is modeled at the granularity the conditioning claims speak about:
its color family (`len(shape) == 3` or not) plus abstract payload content.
The OpenCV/numpy primitives the stages call are oracles returning a
same-shape array (payload only) or raising; every `try/except` of the
source appears as a `match` on the first raising call. -/

structure CVImage where
  color : Bool
  data : Nat
deriving DecidableEq

/-- Oracles for the OpenCV/numpy primitives used by the conditioning
stages. -/
structure CVOps where
  rgb2bgr : Nat → Except String Nat
  bgr2rgb : Nat → Except String Nat
  bgr2gray : Nat → Except String Nat
  gray2bgr : Nat → Except String Nat
  /-- CLAHE, clip limit 2.0, 8×8 tiles. -/
  clahe : Nat → Except String Nat
  /-- `np.mean(gray)`. -/
  meanLuma : Nat → Except String Rat
  /-- `cv2.convertScaleAbs(image, alpha=1.0, beta=·)`. -/
  scaleAbs : Nat → Rat → Except String Nat
  canny : Nat → Except String Nat
  /-- `cv2.HoughLines`: `none` when no lines are found; otherwise the θ of
  each detected line, already in degrees (`np.degrees(theta)`). -/
  hough : Nat → Except String (Option (List Rat))
  /-- `rotate_image`'s body: rotation matrix, expanded canvas, white border. -/
  warpAffine : Nat → Rat → Except String Nat
  /-- bilateral filter, d=9, sigmaColor=75, sigmaSpace=75. -/
  bilateral : Nat → Except String Nat
  filter2D : Nat → List (List Int) → Except String Nat

/-- `enhance_contrast`. -/
def enhance_contrast (ops : CVOps) (image : CVImage) : CVImage :=
  match (if image.color then ops.bgr2gray image.data else .ok image.data) with
  | .error _ => image
  | .ok gray =>
    match ops.clahe gray with
    | .error _ => image
    | .ok enhanced =>
      if image.color then
        match ops.gray2bgr enhanced with
        | .error _ => image
        | .ok c => ⟨true, c⟩
      else ⟨false, enhanced⟩

/-- `adjust_brightness`. -/
def adjust_brightness (ops : CVOps) (image : CVImage) : CVImage :=
  match (if image.color then ops.bgr2gray image.data else .ok image.data) with
  | .error _ => image
  | .ok gray =>
    match ops.meanLuma gray with
    | .error _ => image
    | .ok mean_brightness =>
      let brightness_adjustment : Rat :=
        if mean_brightness < 50 then 50
        else if mean_brightness > 200 then -30
        else 128 - mean_brightness
      if brightness_adjustment ≠ 0 then
        match ops.scaleAbs image.data brightness_adjustment with
        | .error _ => image
        | .ok adjusted => ⟨image.color, adjusted⟩
      else image

/-- `rotate_image` (it has its own `try/except` returning the input). -/
def rotate_image (ops : CVOps) (image : CVImage) (angle : Rat) : CVImage :=
  match ops.warpAffine image.data angle with
  | .error _ => image
  | .ok rotated => ⟨image.color, rotated⟩

def insertSorted (x : Rat) : List Rat → List Rat
  | [] => [x]
  | y :: t => if x ≤ y then x :: y :: t else y :: insertSorted x t

def sortRats : List Rat → List Rat
  | [] => []
  | x :: t => insertSorted x (sortRats t)

/-- `np.median` on a nonempty list: middle element, or mean of the two
middle elements. -/
def median (l : List Rat) : Rat :=
  let s := sortRats l
  let n := s.length
  if n % 2 = 1 then s.getD (n / 2) 0
  else (s.getD (n / 2 - 1) 0 + s.getD (n / 2) 0) / 2

/-- `correct_rotation`. -/
def correct_rotation (ops : CVOps) (image : CVImage) : CVImage :=
  match (if image.color then ops.bgr2gray image.data else .ok image.data) with
  | .error _ => image
  | .ok gray =>
    match ops.canny gray with
    | .error _ => image
    | .ok edges =>
      match ops.hough edges with
      | .error _ => image
      | .ok none => image
      | .ok (some thetas) =>
        if thetas.isEmpty then image
        else
          let angles := ((thetas.take 10).map (fun θ => θ - 90)).filter
            (fun a => decide ((-45 : Rat) ≤ a) && decide (a ≤ (45 : Rat)))
          if angles.isEmpty then image
          else
            let avg_angle := median angles
            if 2 < |avg_angle| then rotate_image ops image avg_angle
            else image

/-- `reduce_noise`.  The source branches on color depth but applies the
identical bilateral filter in both branches. -/
def reduce_noise (ops : CVOps) (image : CVImage) : CVImage :=
  match (if image.color then ops.bilateral image.data else ops.bilateral image.data) with
  | .error _ => image
  | .ok denoised => ⟨image.color, denoised⟩

def sharpening_kernel : List (List Int) :=
  [[-1, -1, -1], [-1, 9, -1], [-1, -1, -1]]

/-- `sharpen_image`. -/
def sharpen_image (ops : CVOps) (image : CVImage) : CVImage :=
  match ops.filter2D image.data sharpening_kernel with
  | .error _ => image
  | .ok sharpened => ⟨image.color, sharpened⟩

/-- The five-stage pipeline body of `preprocess_image_for_ocr`. -/
def condPipeline (ops : CVOps) (i : CVImage) : CVImage :=
  sharpen_image ops (reduce_noise ops (correct_rotation ops
    (adjust_brightness ops (enhance_contrast ops i))))

/-- `preprocess_image_for_ocr`: PIL→OpenCV conversion, the five stages,
OpenCV→PIL conversion, with the outer `try/except` returning the original
image. -/
def preprocess_image_for_ocr (ops : CVOps) (image : CVImage) : CVImage :=
  match (if image.color then ops.rgb2bgr image.data else .ok image.data) with
  | .error _ => image
  | .ok d0 =>
    let i5 := condPipeline ops ⟨image.color, d0⟩
    match (if i5.color then ops.bgr2rgb i5.data else .ok i5.data) with
    | .error _ => image
    | .ok dOut => ⟨i5.color, dOut⟩

/-- An oracle that raises on every input. -/
def failsAll {α β : Type} (f : α → Except String β) : Prop :=
  ∀ x, ∃ e, f x = Except.error e

theorem enhance_contrast_color (ops : CVOps) (i : CVImage) :
    (enhance_contrast ops i).color = i.color := by
  rw [enhance_contrast]
  repeat' split
  all_goals simp_all

theorem adjust_brightness_color (ops : CVOps) (i : CVImage) :
    (adjust_brightness ops i).color = i.color := by
  rw [adjust_brightness]
  repeat' split
  all_goals try rfl
  all_goals dsimp only
  all_goals repeat' split
  all_goals rfl

theorem correct_rotation_color (ops : CVOps) (i : CVImage) :
    (correct_rotation ops i).color = i.color := by
  rw [correct_rotation]
  repeat' split
  all_goals simp_all [rotate_image]
  repeat' split
  all_goals simp_all

theorem reduce_noise_color (ops : CVOps) (i : CVImage) :
    (reduce_noise ops i).color = i.color := by
  rw [reduce_noise]
  repeat' split
  all_goals simp_all

theorem sharpen_image_color (ops : CVOps) (i : CVImage) :
    (sharpen_image ops i).color = i.color := by
  rw [sharpen_image]
  repeat' split
  all_goals simp_all

theorem condPipeline_color (ops : CVOps) (i : CVImage) :
    (condPipeline ops i).color = i.color := by
  rw [condPipeline, sharpen_image_color, reduce_noise_color, correct_rotation_color,
    adjust_brightness_color, enhance_contrast_color]

theorem preprocess_color (ops : CVOps) (i : CVImage) :
    (preprocess_image_for_ocr ops i).color = i.color := by
  rw [preprocess_image_for_ocr]
  split
  · rfl
  · next d0 _ =>
    have hc := condPipeline_color ops ⟨i.color, d0⟩
    dsimp only
    split
    · rfl
    · exact hc

theorem enhance_contrast_failsAll (ops : CVOps) (i : CVImage) (h : failsAll ops.clahe) :
    enhance_contrast ops i = i := by
  rw [enhance_contrast]
  split
  · rfl
  · next gray _ =>
    obtain ⟨e, he⟩ := h gray
    rw [he]

theorem adjust_brightness_failsAll (ops : CVOps) (i : CVImage)
    (h : ∀ x a, ∃ e, ops.scaleAbs x a = Except.error e) :
    adjust_brightness ops i = i := by
  rw [adjust_brightness]
  split
  · rfl
  · split
    · rfl
    · dsimp only
      split_ifs
      all_goals try rfl
      all_goals obtain ⟨e, he⟩ := h i.data _
      all_goals rw [he]

theorem correct_rotation_failsAll (ops : CVOps) (i : CVImage) (h : failsAll ops.canny) :
    correct_rotation ops i = i := by
  rw [correct_rotation]
  split
  · rfl
  · next gray _ =>
    obtain ⟨e, he⟩ := h gray
    rw [he]

theorem reduce_noise_failsAll (ops : CVOps) (i : CVImage) (h : failsAll ops.bilateral) :
    reduce_noise ops i = i := by
  rw [reduce_noise]
  obtain ⟨e, he⟩ := h i.data
  cases hcol : i.color <;> simp [hcol, he]

theorem sharpen_image_failsAll (ops : CVOps) (i : CVImage)
    (h : ∀ x k, ∃ e, ops.filter2D x k = Except.error e) :
    sharpen_image ops i = i := by
  rw [sharpen_image]
  obtain ⟨e, he⟩ := h i.data sharpening_kernel
  rw [he]

theorem condPipeline_skip_contrast (ops : CVOps) (i : CVImage) (h : failsAll ops.clahe) :
    condPipeline ops i =
      sharpen_image ops (reduce_noise ops (correct_rotation ops (adjust_brightness ops i))) := by
  rw [condPipeline, enhance_contrast_failsAll ops i h]

/-! ### Concrete contexts used by witnesses and counterexamples -/

/-- A run whose primary confidence is 0 (fallback taken); the raw image is
`0`, the conditioned image is `1`. -/
def ctxLow : Ctx Nat where
  image_url := "http://img"
  registration_id := some "reg-1"
  fetch := .ok 0
  preprocess := fun i => i + 1
  tessOut := fun _ => .ok ⟨"", []⟩
  visionClientOk := true
  visionResp := fun i => .ok (some (if i = 0 then "PESO: 3.2 kg" else ""))
  elapsed_ms := 120
  logWriteOk := true
  db0 := []

/-- A run whose primary confidence is 0.85 (no fallback). -/
def ctxHigh : Ctx Nat :=
  { ctxLow with tessOut := fun _ => .ok ⟨"PESO: 2.5 kg", [85, 85]⟩ }

/-- A run whose acquisition raises. -/
def ctxErr : Ctx Nat :=
  { ctxLow with fetch := .error "connection refused" }

/-- Failing-primitive conditioning oracles. -/
def opsW : CVOps where
  rgb2bgr := fun d => .ok (d + 1)
  bgr2rgb := fun d => .ok (d + 2)
  bgr2gray := fun d => .ok (d + 3)
  gray2bgr := fun d => .ok (d + 4)
  clahe := fun _ => .error "clahe failed"
  meanLuma := fun _ => .ok 128
  scaleAbs := fun _ _ => .error "scaleAbs failed"
  canny := fun _ => .error "canny failed"
  hough := fun _ => .ok none
  warpAffine := fun d _ => .ok (d + 5)
  bilateral := fun _ => .error "bilateral failed"
  filter2D := fun _ _ => .error "filter2D failed"

/-! ### Helper lemmas about `process_image`'s two paths -/

theorem process_image_error_outcome {Img : Type} (ctx : Ctx Img) (e : String)
    (hfetch : ctx.fetch = Except.error e) :
    (process_image ctx).outcome =
      ⟨false, none, none, 0, "error", ctx.elapsed_ms,
        some ("Failed to load image from " ++ ctx.image_url ++ ": " ++ e)⟩ := by
  rw [process_image, download_image, hfetch]

theorem process_image_success_fields {Img : Type} (ctx : Ctx Img) (img : Img)
    (hfetch : ctx.fetch = Except.ok img) :
    ∃ r, (process_image ctx).selected = some r ∧
      (process_image ctx).outcome.extracted_weight =
        (match r.extracted_weight with
         | some w => validate_weight_value w
         | none => none) := by
  rw [process_image, download_image, hfetch]
  exact ⟨_, rfl, rfl⟩

/-! ### Claims -/

/-- Claim C1, counterexample: in the fallback run `ctxLow` the secondary
adapter is invoked on the raw acquired image `0`, while the conditioned
bitmap — the image the primary adapter consumed — is `1 ≠ 0`.  So the
secondary adapter is not invoked on the conditioned bitmap. -/
theorem claim_C1_counterexample :
    (process_image ctxLow).visionCalls = [0] ∧
    (process_image ctxLow).tesseractCalls = [ctxLow.preprocess 0] ∧
    ctxLow.preprocess 0 = 1 ∧ (0 : Nat) ≠ 1 := by
  with_unfolding_all decide

/-- Claim C1 (amended): on every fallback run the secondary (Google Vision)
adapter is invoked on the raw acquired image — not on the conditioned bitmap
consumed by the primary adapter. -/
theorem claim_C1 {Img : Type} (ctx : Ctx Img) (img : Img)
    (hfetch : ctx.fetch = Except.ok img)
    (hconf : (extract_with_tesseract (ctx.tessOut (ctx.preprocess img))).confidence_score <
      (7 : Rat)/10) :
    (process_image ctx).visionCalls = [img] := by
  rw [process_image, download_image, hfetch]
  dsimp only
  rw [if_neg (not_le.mpr hconf)]

/-- Witness for C1 at the concrete fallback run `ctxLow`. -/
theorem claim_C1_witness : (process_image ctxLow).visionCalls = [0] :=
  claim_C1 ctxLow 0 rfl (by with_unfolding_all decide)

/-- Claim C2: the code divides the number captured by the
`weight: <number>` pattern by 1000 — because the pattern's source string
contains `'g'` (in the word `weight`) and not `'kg'` — so on
`"weight: 2500"` the parser returns `2.5` where the claim (and the code's
own gram-conversion comment) requires the label value to be read directly
in kilograms, hence discarded by the range gate with final result `null`. -/
theorem claim_C2 :
    gramsConv Pat.weight = true ∧
    firstMatchOf Pat.weight (normText "weight: 2500") = some ['2', '5', '0', '0'] ∧
    extract_weight_from_text "weight: 2500" = some (5/2) := by
  with_unfolding_all decide

/-- Claim C3: on every successfully acquired run, the secondary engine is
never invoked when primary confidence is ≥ 0.7, and is invoked exactly once
when primary confidence is < 0.7. -/
theorem claim_C3 {Img : Type} (ctx : Ctx Img) (img : Img)
    (hfetch : ctx.fetch = Except.ok img) :
    ((7 : Rat)/10 ≤ (extract_with_tesseract (ctx.tessOut (ctx.preprocess img))).confidence_score →
      (process_image ctx).visionCalls = []) ∧
    ((extract_with_tesseract (ctx.tessOut (ctx.preprocess img))).confidence_score < (7 : Rat)/10 →
      (process_image ctx).visionCalls.length = 1) := by
  constructor
  · intro hge
    rw [process_image, download_image, hfetch]
    dsimp only
    rw [if_pos hge]
  · intro hlt
    rw [process_image, download_image, hfetch]
    dsimp only
    rw [if_neg (not_le.mpr hlt)]
    rfl

/-- Witness for C3: zero secondary calls at `ctxHigh` (confidence 0.85),
one secondary call at `ctxLow` (confidence 0). -/
theorem claim_C3_witness :
    (process_image ctxHigh).visionCalls = [] ∧
    (process_image ctxLow).visionCalls.length = 1 :=
  ⟨(claim_C3 ctxHigh 0 rfl).1 (by with_unfolding_all decide),
   (claim_C3 ctxLow 0 rfl).2 (by with_unfolding_all decide)⟩

/-- Claim C4: whenever both engines have run (fallback taken), the
arbitrated result is the one with the strictly greater confidence score,
ties selecting the primary (Tesseract) result; the returned outcome carries
the winner's engine, confidence, text, and its weight through the final
re-validation. -/
theorem claim_C4 {Img : Type} (ctx : Ctx Img) (img : Img)
    (hfetch : ctx.fetch = Except.ok img)
    (hconf : (extract_with_tesseract (ctx.tessOut (ctx.preprocess img))).confidence_score <
      (7 : Rat)/10) :
    (process_image ctx).selected =
      some (if (extract_with_google_vision ctx.visionClientOk
                  (ctx.visionResp img)).confidence_score >
              (extract_with_tesseract (ctx.tessOut (ctx.preprocess img))).confidence_score
            then extract_with_google_vision ctx.visionClientOk (ctx.visionResp img)
            else extract_with_tesseract (ctx.tessOut (ctx.preprocess img))) ∧
    (∀ r, (process_image ctx).selected = some r →
      (process_image ctx).outcome.ocr_engine = r.ocr_engine ∧
      (process_image ctx).outcome.confidence_score = r.confidence_score ∧
      (process_image ctx).outcome.extracted_text = some r.extracted_text ∧
      (process_image ctx).outcome.extracted_weight =
        r.extracted_weight.bind validate_weight_value) ∧
    ((extract_with_google_vision ctx.visionClientOk (ctx.visionResp img)).confidence_score =
        (extract_with_tesseract (ctx.tessOut (ctx.preprocess img))).confidence_score →
      (process_image ctx).selected =
        some (extract_with_tesseract (ctx.tessOut (ctx.preprocess img)))) := by
  rw [process_image, download_image, hfetch]
  dsimp only
  rw [if_neg (not_le.mpr hconf)]
  refine ⟨rfl, ?_, ?_⟩
  · intro r hr
    rw [Option.some_inj] at hr
    subst hr
    refine ⟨rfl, rfl, rfl, ?_⟩
    cases (if (extract_with_google_vision ctx.visionClientOk
        (ctx.visionResp img)).confidence_score >
        (extract_with_tesseract (ctx.tessOut (ctx.preprocess img))).confidence_score
      then extract_with_google_vision ctx.visionClientOk (ctx.visionResp img)
      else extract_with_tesseract (ctx.tessOut (ctx.preprocess img))).extracted_weight <;> rfl
  · intro heq
    rw [if_neg]
    rw [heq]
    exact lt_irrefl _

/-- Witness for C4 at `ctxLow`: secondary confidence 0.85 beats primary 0,
so the secondary result is selected and its fields reach the outcome. -/
theorem claim_C4_witness :
    (process_image ctxLow).selected =
      some (if (extract_with_google_vision ctxLow.visionClientOk
                  (ctxLow.visionResp 0)).confidence_score >
              (extract_with_tesseract (ctxLow.tessOut (ctxLow.preprocess 0))).confidence_score
            then extract_with_google_vision ctxLow.visionClientOk (ctxLow.visionResp 0)
            else extract_with_tesseract (ctxLow.tessOut (ctxLow.preprocess 0))) :=
  (claim_C4 ctxLow 0 rfl (by with_unfolding_all decide)).1

/-- Claim C5: every value the parser returns lies in [0.1, 50.0] kg; the
parser is exactly "first candidate passing the range gate, else null"
(out-of-range candidates are discarded and the search continues); and every
outcome's `extracted_weight`, when present, lies in [0.1, 50.0] kg. -/
theorem claim_C5 :
    (∀ s w, extract_weight_from_text s = some w → (1 : Rat)/10 ≤ w ∧ w ≤ 50) ∧
    (∀ s, extract_weight_from_text s = (allCands s).find? inRange) ∧
    (∀ (Img : Type) (ctx : Ctx Img) (v : Rat),
      (process_image ctx).outcome.extracted_weight = some v →
        (1 : Rat)/10 ≤ v ∧ v ≤ 50) := by
  refine ⟨extract_inRange, extract_eq_find, ?_⟩
  intro Img ctx v h
  cases hf : ctx.fetch with
  | error e =>
    rw [process_image_error_outcome ctx e hf] at h
    cases h
  | ok img =>
    obtain ⟨r, _, hw⟩ := process_image_success_fields ctx img hf
    rw [hw] at h
    cases hrw : r.extracted_weight with
    | none => rw [hrw] at h; cases h
    | some w => rw [hrw] at h; exact validate_range w v h

/-- Witness for C5: the parser's value on `"2500 g"` is in range; the
find?-characterization holds on `"200 kg 3 kg"` (whose first candidate 200
is discarded and the search continues to 3); the outcome weight of `ctxLow`
is in range. -/
theorem claim_C5_witness :
    ((1 : Rat)/10 ≤ 5/2 ∧ (5 : Rat)/2 ≤ 50) ∧
    extract_weight_from_text "200 kg 3 kg" = (allCands "200 kg 3 kg").find? inRange ∧
    ((1 : Rat)/10 ≤ 16/5 ∧ (16 : Rat)/5 ≤ 50) :=
  ⟨claim_C5.1 "2500 g" (5/2) (by with_unfolding_all decide),
   claim_C5.2.1 "200 kg 3 kg",
   claim_C5.2.2 Nat ctxLow (16/5) (by with_unfolding_all decide)⟩

/-- Claim C6: whenever acquisition raises, `process_image` returns (does not
propagate) an outcome with `success:false`, engine `"error"`, confidence
0.0, null weight, no text key, the measured time, and the stringified
cause. -/
theorem claim_C6 {Img : Type} (ctx : Ctx Img) (e : String)
    (hfetch : ctx.fetch = Except.error e) :
    (process_image ctx).outcome =
      ⟨false, none, none, 0, "error", ctx.elapsed_ms,
        some ("Failed to load image from " ++ ctx.image_url ++ ": " ++ e)⟩ :=
  process_image_error_outcome ctx e hfetch

/-- Witness for C6 at the unreachable-URL run `ctxErr`. -/
theorem claim_C6_witness :
    (process_image ctxErr).outcome =
      ⟨false, none, none, 0, "error", 120,
        some ("Failed to load image from " ++ "http://img" ++ ": " ++ "connection refused")⟩ :=
  claim_C6 ctxErr "connection refused" rfl

/-- Claim C7: with a registration id, a failing log-sink write leaves every
field of the returned outcome identical to the successful-write run, and the
failed write is rolled back (the log table is unchanged); no exception
propagates. -/
theorem claim_C7 {Img : Type} (ctx : Ctx Img) (rid : String)
    (hreg : ctx.registration_id = some rid) :
    (process_image {ctx with logWriteOk := false}).outcome =
      (process_image {ctx with logWriteOk := true}).outcome ∧
    (process_image {ctx with logWriteOk := false}).db = ctx.db0 := by
  cases hf : ctx.fetch with
  | error e =>
    constructor
    · simp [process_image, download_image, hf]
    · simp [process_image, download_image, hf, hreg, log_ocr_processing]
  | ok img =>
    constructor
    · simp [process_image, download_image, hf]
    · simp [process_image, download_image, hf, hreg, log_ocr_processing]

/-- Witness for C7 at `ctxLow` (registration id `"reg-1"`). -/
theorem claim_C7_witness :
    (process_image {ctxLow with logWriteOk := false}).outcome =
      (process_image {ctxLow with logWriteOk := true}).outcome ∧
    (process_image {ctxLow with logWriteOk := false}).db = ctxLow.db0 :=
  claim_C7 ctxLow "reg-1" rfl

/-- Claim C8: conditioning is total (the embedding returns an image on every
input) and preserves the input's color family; each stage whose core
primitive raises passes its input through unchanged, and with a failing
stage the pipeline is exactly the pipeline of the remaining stages — a
single stage's failure never aborts the pipeline. -/
theorem claim_C8 :
    (∀ (ops : CVOps) (i : CVImage), (preprocess_image_for_ocr ops i).color = i.color) ∧
    (∀ (ops : CVOps) (i : CVImage), failsAll ops.clahe → enhance_contrast ops i = i) ∧
    (∀ (ops : CVOps) (i : CVImage), (∀ x a, ∃ e, ops.scaleAbs x a = Except.error e) →
      adjust_brightness ops i = i) ∧
    (∀ (ops : CVOps) (i : CVImage), failsAll ops.canny → correct_rotation ops i = i) ∧
    (∀ (ops : CVOps) (i : CVImage), failsAll ops.bilateral → reduce_noise ops i = i) ∧
    (∀ (ops : CVOps) (i : CVImage), (∀ x k, ∃ e, ops.filter2D x k = Except.error e) →
      sharpen_image ops i = i) ∧
    (∀ (ops : CVOps) (i : CVImage), failsAll ops.clahe →
      condPipeline ops i = sharpen_image ops (reduce_noise ops (correct_rotation ops
        (adjust_brightness ops i)))) :=
  ⟨preprocess_color, enhance_contrast_failsAll, adjust_brightness_failsAll,
   correct_rotation_failsAll, reduce_noise_failsAll, sharpen_image_failsAll,
   condPipeline_skip_contrast⟩

/-- Witness for C8 at the failing-primitive oracles `opsW` and a color
image. -/
theorem claim_C8_witness :
    (preprocess_image_for_ocr opsW ⟨true, 7⟩).color = true ∧
    enhance_contrast opsW ⟨true, 7⟩ = ⟨true, 7⟩ ∧
    adjust_brightness opsW ⟨true, 7⟩ = ⟨true, 7⟩ ∧
    correct_rotation opsW ⟨true, 7⟩ = ⟨true, 7⟩ ∧
    reduce_noise opsW ⟨true, 7⟩ = ⟨true, 7⟩ ∧
    sharpen_image opsW ⟨true, 7⟩ = ⟨true, 7⟩ ∧
    condPipeline opsW ⟨true, 7⟩ = sharpen_image opsW (reduce_noise opsW (correct_rotation opsW
      (adjust_brightness opsW ⟨true, 7⟩))) :=
  ⟨claim_C8.1 opsW ⟨true, 7⟩,
   claim_C8.2.1 opsW ⟨true, 7⟩ (fun _ => ⟨"clahe failed", rfl⟩),
   claim_C8.2.2.1 opsW ⟨true, 7⟩ (fun _ _ => ⟨"scaleAbs failed", rfl⟩),
   claim_C8.2.2.2.1 opsW ⟨true, 7⟩ (fun _ => ⟨"canny failed", rfl⟩),
   claim_C8.2.2.2.2.1 opsW ⟨true, 7⟩ (fun _ => ⟨"bilateral failed", rfl⟩),
   claim_C8.2.2.2.2.2.1 opsW ⟨true, 7⟩ (fun _ _ => ⟨"filter2D failed", rfl⟩),
   claim_C8.2.2.2.2.2.2 opsW ⟨true, 7⟩ (fun _ => ⟨"clahe failed", rfl⟩)⟩

/-- Claim C9: on `"2500 g"` no earlier tier-1 pattern matches, the
`<number> g` pattern matches `2500` first, its gram conversion (÷1000)
applies, and the result 2.5 passes the range gate, so the parser returns
2.5. -/
theorem claim_C9 :
    firstMatchOf Pat.kg (normText "2500 g") = none ∧
    firstMatchOf Pat.k (normText "2500 g") = none ∧
    firstMatchOf Pat.g (normText "2500 g") = some ['2', '5', '0', '0'] ∧
    gramsConv Pat.g = true ∧
    convWeight Pat.g 2500 = 5/2 ∧
    inRange (5/2) = true ∧
    extract_weight_from_text "2500 g" = some (5/2) := by
  with_unfolding_all decide

/-- Claim C10: whenever a run's outcome carries a non-null weight, that
weight is the arbitrated result's parsed weight rounded (half-even) to two
decimal places by the final re-validation; the adapters obtain that weight
from the shared parser, and the parser itself does not round (witnessed by
`0.123`). -/
theorem claim_C10 :
    (∀ (Img : Type) (ctx : Ctx Img) (v : Rat),
      (process_image ctx).outcome.extracted_weight = some v →
        ∃ r w, (process_image ctx).selected = some r ∧ r.extracted_weight = some w ∧
          inRange w = true ∧ v = round2 w) ∧
    (∀ t : TessOut, (extract_with_tesseract (Except.ok t)).extracted_weight =
      extract_weight_from_text t.text) ∧
    (∀ txt : String,
      (extract_with_google_vision true (Except.ok (some txt))).extracted_weight =
        extract_weight_from_text txt) ∧
    extract_weight_from_text "0.123 kg" = some (123/1000) ∧
    round2 (123/1000) = 12/100 ∧ (123 : Rat)/1000 ≠ 12/100 := by
  refine ⟨?_, fun _ => rfl, fun _ => rfl, by with_unfolding_all decide,
    by with_unfolding_all decide, by with_unfolding_all decide⟩
  intro Img ctx v h
  cases hf : ctx.fetch with
  | error e =>
    rw [process_image_error_outcome ctx e hf] at h
    cases h
  | ok img =>
    obtain ⟨r, hsel, hw⟩ := process_image_success_fields ctx img hf
    rw [hw] at h
    cases hrw : r.extracted_weight with
    | none => rw [hrw] at h; cases h
    | some w =>
      rw [hrw] at h
      obtain ⟨hin, hv⟩ := validate_some w v h
      exact ⟨r, w, hsel, hrw, hin, hv⟩

/-- Witness for C10 at `ctxLow` (outcome weight 3.2 = round2 of the parsed
3.2). -/
theorem claim_C10_witness :
    ∃ r w, (process_image ctxLow).selected = some r ∧ r.extracted_weight = some w ∧
      inRange w = true ∧ (16 : Rat)/5 = round2 w :=
  claim_C10.1 Nat ctxLow (16/5) (by with_unfolding_all decide)

end RecepcionOCR
